import Mathlib

/-!
Verification development for the thunderdome-planning-poker session engine.

This file gives a shallow embedding of the three source modules under
verification:

* the redis cache package (key constants, Set/Get/Delete over a key-value
  store holding serialized snapshots),
* the poker database service (CreateGame, GetGameByID, UpdateGame,
  DeleteGame) with its cache-aside discipline, transactional creation and
  access-code encryption boundary,
* the ai point-suggestion package (parseAIResponse, findClosestPoint,
  findNumberInContent, strconv.Atoi).

Conventions of the embedding: Go strings are Lean Strings (indices are
character indices where the Go source uses byte indices; every input
considered here is unaffected by the difference); machine integers are
Int/Nat (no claim under study depends on overflow wrap-around); database
null text columns read through COALESCE(x, two single quotes) are modelled
as the empty string; timestamps are Nat; fallible Go calls return Option
or Except.  External library calls (json.Unmarshal, regexp, AES
encryption) are modelled as explicit function parameters, so every theorem
quantifies over their behavior.  A returned Option.none from the ai
functions models a Go runtime panic (out-of-range slice index).
-/

/-- Literal left-brace character, written via its code point. -/
def lbrace : Char := Char.ofNat 123

/-- Literal right-brace character, written via its code point. -/
def rbrace : Char := Char.ofNat 125

/-! ## Cache model

The redis client state is a map from string keys to stored blobs.  A blob
is either the JSON serialization of a full game aggregate (a value that
json.Unmarshal decodes back into that aggregate) or bytes that fail to
unmarshal into the aggregate type. -/

/-- Poker user (participant) aggregate entry.  Modelled from the spec:
a Participant has identity, display name, liveness flag and spectator
flag; the thunderdome package holding the Go struct is outside the
provided sources. -/
structure PokerUser where
  ID : String
  Name : String
  Active : Bool
  Spectator : Bool
deriving DecidableEq

/-- Story aggregate entry, with the fields the poker service reads and
writes (id, name, type, reference id, link, description, acceptance
criteria, priority, queue position, points). -/
structure Story where
  ID : String
  Name : String
  StoryType : String
  ReferenceID : String
  Link : String
  Description : String
  AcceptanceCriteria : String
  Priority : Int
  Position : Nat
  Points : String
deriving DecidableEq

/-- Estimation scale, as scanned from the estimation_scale join in
GetGameByID. -/
structure EstimationScale where
  ID : String
  Name : String
  Description : String
  ScaleType : String
  Values : List String
  CreatedBy : String
  CreatedAt : Nat
  UpdatedAt : Nat
  IsPublic : Bool
  OrganizationID : String
  TeamID : String
  DefaultScale : Bool
deriving DecidableEq

/-- Zero value of EstimationScale: what json.Unmarshal produces from the
COALESCE fallback empty-object JSON when the scale row is absent. -/
def zeroEstimationScale : EstimationScale :=
  { ID := "", Name := "", Description := "", ScaleType := "", Values := [],
    CreatedBy := "", CreatedAt := 0, UpdatedAt := 0, IsPublic := false,
    OrganizationID := "", TeamID := "", DefaultScale := false }

/-- The thunderdome.Poker aggregate, with the fields the poker service
populates. -/
structure Poker where
  ID : String
  Name : String
  Users : List PokerUser
  Stories : List Story
  VotingLocked : Bool
  ActiveStoryID : String
  PointValuesAllowed : List String
  AutoFinishVoting : Bool
  PointAverageRounding : String
  HideVoterIdentity : Bool
  Facilitators : List String
  JoinCode : String
  FacilitatorCode : String
  EstimationScaleID : String
  EstimationScaleData : Option EstimationScale
  TeamID : String
  TeamName : String
  CreatedDate : Nat
  UpdatedDate : Nat
deriving DecidableEq

/-- A blob stored in the cache: either the JSON serialization of a Poker
aggregate (unmarshal succeeds and yields that aggregate) or data that
does not unmarshal into a Poker. -/
inductive CacheVal where
  | game (g : Poker)
  | garbage
deriving DecidableEq

/-- Redis key-value store state. -/
def Cache : Type := String → Option CacheVal

/-- Read a key (GET). -/
def cacheGet (c : Cache) (key : String) : Option CacheVal := c key

/-- Write a key (SET). -/
def cachePut (c : Cache) (key : String) (v : CacheVal) : Cache :=
  fun k => if k = key then some v else c k

/-- Remove a key (DEL). -/
def cacheDel (c : Cache) (key : String) : Cache :=
  fun k => if k = key then none else c k

/-- Key prefix constant from the redis package. -/
def KeyPrefixGame : String := "game:"

/-- Delete from the redis package: client.Del(ctx, key).Err().  Redis DEL
on an absent key removes nothing and reports a zero count with a nil
error, so the call succeeds whether or not the key exists. -/
def redisDelete (c : Cache) (key : String) : Except String Unit × Cache :=
  (Except.ok (), cacheDel c key)

/-! ## Database model

The durable store is the set of relational rows the poker service
touches. -/

/-- One row of thunderdome.poker. -/
structure PokerRow where
  ID : String
  Name : String
  VotingLocked : Bool
  ActiveStoryID : String
  AutoFinishVoting : Bool
  PointAverageRounding : String
  HideVoterIdentity : Bool
  JoinCode : String
  LeaderCode : String
  EstimationScaleID : String
  PointValuesAllowed : List String
  TeamID : String
  CreatedDate : Nat
  UpdatedDate : Nat
deriving DecidableEq

/-- One row of thunderdome.poker_story. -/
structure StoryRow where
  PokerID : String
  S : Story
deriving DecidableEq

/-- One row of thunderdome.poker_user. -/
structure UserRow where
  PokerID : String
  U : PokerUser
deriving DecidableEq

/-- Durable store state: poker rows, facilitator rows (poker_id, user_id),
story rows, participant rows, estimation scales. -/
structure DB where
  pokerRows : List PokerRow
  facilitatorRows : List (String × String)
  storyRows : List StoryRow
  userRows : List UserRow
  estimationScales : List EstimationScale
deriving DecidableEq

/-- The AES encryption boundary (internal/db Encrypt and Decrypt are
outside the provided sources): both calls can fail, modelled as Option. -/
structure Crypto where
  encrypt : String → String → Option String
  decrypt : String → String → Option String

/-- Shared source pattern: a non-empty access code is encrypted with the
service AES key before storage; an empty code is stored as the empty
string without calling Encrypt. -/
def encCode (crypto : Crypto) (aesKey code : String) : Option String :=
  if code = "" then some "" else crypto.encrypt code aesKey

/-! ## Poker service operations -/

/-- GetUsers.  Modelled from the spec: ReadSessionAggregate returns the
session participants from the Session Store; the GetUsers implementation
is outside the provided sources.  It is the participant rows of the
session. -/
def GetUsers (db : DB) (pokerID : String) : List PokerUser :=
  (db.userRows.filter (fun r => r.PokerID == pokerID)).map (fun r => r.U)

/-- Insert a story into a list sorted by queue position. -/
def insertByPos (s : Story) : List Story → List Story
  | [] => [s]
  | t :: ts => if s.Position ≤ t.Position then s :: t :: ts else t :: insertByPos s ts

/-- Insertion sort by queue position. -/
def sortByPos : List Story → List Story
  | [] => []
  | s :: ss => insertByPos s (sortByPos ss)

/-- GetStories.  Modelled from the spec: the session owns an ordered
queue of Items whose queue position defines the ordering; the GetStories
implementation is outside the provided sources.  It is the story rows of
the session ordered by position. -/
def GetStories (db : DB) (pokerID : String) : List Story :=
  sortByPos ((db.storyRows.filter (fun r => r.PokerID == pokerID)).map (fun r => r.S))

/-- Cache key computed in GetGameByID: fmt.Sprintf of game colon and the
id. -/
def getGameCacheKey (pokerID : String) : String := "game:" ++ pokerID

/-- Cache key computed in CreateGame. -/
def createGameCacheKey (pokerID : String) : String := "game:" ++ pokerID

/-- Cache key computed in UpdateGame. -/
def updateGameCacheKey (pokerID : String) : String := "game:" ++ pokerID

/-- Cache key computed in DeleteGame. -/
def deleteGameCacheKey (pokerID : String) : String := "game:" ++ pokerID

/-- The durable-store portion of GetGameByID: the poker row query with
its facilitator and estimation-scale joins, the access-code decryption
gated on facilitator membership, and the participant and story loads. -/
def readFromStore (crypto : Crypto) (aesKey : String) (db : DB)
    (pokerID userID : String) : Except String Poker :=
  match db.pokerRows.find? (fun r => r.ID == pokerID) with
  | none => Except.error "get poker query error"
  | some row =>
    let facilitators := (db.facilitatorRows.filter (fun p => p.1 == pokerID)).map (fun p => p.2)
    let scaleData :=
      match db.estimationScales.find? (fun s => s.ID == row.EstimationScaleID) with
      | some s => s
      | none => zeroEstimationScale
    let isFacilitator := facilitators.contains userID
    let joinCodeRes : Except String String :=
      if row.JoinCode ≠ "" then
        match crypto.decrypt row.JoinCode aesKey with
        | some c => Except.ok c
        | none => Except.error "get poker decode join_code error"
      else Except.ok ""
    match joinCodeRes with
    | Except.error e => Except.error e
    | Except.ok jc =>
      let leaderCodeRes : Except String String :=
        if row.LeaderCode ≠ "" ∧ isFacilitator then
          match crypto.decrypt row.LeaderCode aesKey with
          | some c => Except.ok c
          | none => Except.error "get poker decode leader_code error"
        else Except.ok ""
      match leaderCodeRes with
      | Except.error e => Except.error e
      | Except.ok fc =>
        Except.ok
          { ID := row.ID, Name := row.Name, VotingLocked := row.VotingLocked,
            ActiveStoryID := row.ActiveStoryID,
            AutoFinishVoting := row.AutoFinishVoting,
            PointAverageRounding := row.PointAverageRounding,
            HideVoterIdentity := row.HideVoterIdentity,
            EstimationScaleID := row.EstimationScaleID,
            PointValuesAllowed := row.PointValuesAllowed,
            TeamID := row.TeamID, TeamName := "",
            CreatedDate := row.CreatedDate, UpdatedDate := row.UpdatedDate,
            Facilitators := facilitators,
            EstimationScaleData := some scaleData,
            JoinCode := jc, FacilitatorCode := fc,
            Users := GetUsers db pokerID,
            Stories := GetStories db pokerID }

/-- Shared tail of GetGameByID after a cache miss: rebuild the aggregate
from the durable store and, on success, write it back to the cache before
returning (a failed cache write is ignored). -/
def getFromStoreAndCache (crypto : Crypto) (aesKey : String) (db : DB) (cache : Cache)
    (cacheSetFails : Bool) (pokerID userID : String) : Except String Poker × Cache :=
  match readFromStore crypto aesKey db pokerID userID with
  | Except.error e => (Except.error e, cache)
  | Except.ok b =>
    (Except.ok b,
      if cacheSetFails then cache
      else cachePut cache (getGameCacheKey pokerID) (CacheVal.game b))

/-- Cache-read stage of GetGameByID: a failed GET or a blob that fails
to unmarshal yields no cached aggregate. -/
def cacheLookupGame (cache : Cache) (cacheGetFails : Bool) (pokerID : String) :
    Option Poker :=
  if cacheGetFails then none
  else
    match cacheGet cache (getGameCacheKey pokerID) with
    | some (CacheVal.game g) => some g
    | _ => none

/-- GetGameByID.  The cacheGetFails flag models a failed redis GET (any
non-nil error, including a connection failure); cacheSetFails models a
failed redis SET.  A cached blob that fails to unmarshal is CacheVal.garbage. -/
def GetGameByID (crypto : Crypto) (aesKey : String) (db : DB) (cache : Cache)
    (cacheGetFails cacheSetFails : Bool) (pokerID userID : String) :
    Except String Poker × Cache :=
  match cacheLookupGame cache cacheGetFails pokerID with
  | some g =>
    if 0 < g.Stories.length ∧ 0 < g.Users.length then (Except.ok g, cache)
    else getFromStoreAndCache crypto aesKey db cache cacheSetFails pokerID userID
  | none => getFromStoreAndCache crypto aesKey db cache cacheSetFails pokerID userID

/-- Failure point of a durable-store write inside the CreateGame
transaction. -/
inductive CreateFail where
  | insertPoker
  | insertFacilitator
  | insertStory (i : Nat)
  | commit
deriving DecidableEq

/-- Story row inserted by CreateGame for the supplied story at loop index
i: the loop index is used as the position value; id generation by the
database is modelled as a deterministic fresh string. -/
def mkStoryRow (newID : String) (story : Story) (i : Nat) : StoryRow :=
  { PokerID := newID,
    S := { ID := newID ++ "-s" ++ toString i,
           Name := story.Name, StoryType := story.StoryType,
           ReferenceID := story.ReferenceID, Link := story.Link,
           Description := story.Description,
           AcceptanceCriteria := story.AcceptanceCriteria,
           Priority := story.Priority, Position := i, Points := "" } }

/-- Which error, if any, the CreateGame transaction reports: the first
failing durable write aborts the transaction (a story-insert failure can
only occur at an index the story loop actually reaches). -/
def createTxError (fail : Option CreateFail) (stories : List Story) : Option String :=
  match fail with
  | some CreateFail.insertPoker => some "create poker query error"
  | some CreateFail.insertFacilitator => some "create poker facilitator error"
  | some (CreateFail.insertStory i) =>
    if i < stories.length then some "create poker story error" else none
  | some CreateFail.commit => some "create poker commit error"
  | none => none

/-- CreateGame.  fail says which durable write inside the serializable
transaction fails, if any (none means the transaction commits); newID is
the id the database allocates for the session row; now is the NOW()
timestamp.  The three cache flags model failures of the inner
GetGameByID cache read and write and of the final cache SET; all cache
errors are logged and ignored by the source. -/
def CreateGame (crypto : Crypto) (aesKey : String) (db : DB) (cache : Cache)
    (fail : Option CreateFail) (innerGetFails innerSetFails ownSetFails : Bool)
    (newID : String) (now : Nat)
    (facilitatorID name estimationScaleID : String)
    (pointValuesAllowed : List String) (stories : List Story)
    (autoFinishVoting : Bool) (pointAverageRounding joinCode facilitatorCode : String)
    (hideVoterIdentity : Bool) : Except String Poker × DB × Cache :=
  match encCode crypto aesKey joinCode with
  | none => (Except.error "create poker encrypt join_code error", db, cache)
  | some encryptedJoinCode =>
    match encCode crypto aesKey facilitatorCode with
    | none => (Except.error "create poker encrypt leader_code error", db, cache)
    | some encryptedLeaderCode =>
      let b : Poker :=
        { ID := "", Name := name, Users := [], Stories := [],
          VotingLocked := true, ActiveStoryID := "",
          PointValuesAllowed := pointValuesAllowed,
          AutoFinishVoting := autoFinishVoting,
          PointAverageRounding := pointAverageRounding,
          HideVoterIdentity := hideVoterIdentity,
          Facilitators := [facilitatorID],
          JoinCode := joinCode, FacilitatorCode := facilitatorCode,
          EstimationScaleID := estimationScaleID,
          EstimationScaleData := none, TeamID := "", TeamName := "",
          CreatedDate := 0, UpdatedDate := 0 }
      match createTxError fail stories with
      | some e => (Except.error e, db, cache)
      | none =>
        let b := { b with ID := newID }
        let newRow : PokerRow :=
          { ID := newID, Name := name, VotingLocked := true,
            ActiveStoryID := "", AutoFinishVoting := autoFinishVoting,
            PointAverageRounding := pointAverageRounding,
            HideVoterIdentity := hideVoterIdentity,
            JoinCode := encryptedJoinCode, LeaderCode := encryptedLeaderCode,
            EstimationScaleID := estimationScaleID,
            PointValuesAllowed := pointValuesAllowed, TeamID := "",
            CreatedDate := now, UpdatedDate := now }
        let db' : DB :=
          { db with
            pokerRows := db.pokerRows ++ [newRow],
            facilitatorRows := db.facilitatorRows ++ [(newID, facilitatorID)],
            storyRows := db.storyRows ++
              (stories.enum.map (fun p => mkStoryRow newID p.2 p.1)) }
        let inner := GetGameByID crypto aesKey db' cache innerGetFails innerSetFails newID facilitatorID
        let cacheOut : Cache :=
          match inner.1 with
          | Except.error _ => inner.2
          | Except.ok completeGame =>
            if ownSetFails then inner.2
            else cachePut inner.2 (createGameCacheKey newID) (CacheVal.game completeGame)
        (Except.ok b, db', cacheOut)

/-- UpdateGame.  cacheDelFails models a failed redis DEL, whose result
the source discards. -/
def UpdateGame (crypto : Crypto) (aesKey : String) (db : DB) (cache : Cache)
    (cacheDelFails : Bool) (pokerID name : String)
    (pointValuesAllowed : List String) (autoFinishVoting : Bool)
    (pointAverageRounding : String) (hideVoterIdentity : Bool)
    (joinCode facilitatorCode teamID : String) (now : Nat) :
    Except String Unit × DB × Cache :=
  match encCode crypto aesKey joinCode with
  | none => (Except.error "update poker encrypt join_code error", db, cache)
  | some encryptedJoinCode =>
    match encCode crypto aesKey facilitatorCode with
    | none => (Except.error "update poker encrypt leader_code error", db, cache)
    | some encryptedLeaderCode =>
      let db' : DB :=
        { db with
          pokerRows := db.pokerRows.map (fun r =>
            if r.ID == pokerID then
              { r with
                Name := name, PointValuesAllowed := pointValuesAllowed,
                AutoFinishVoting := autoFinishVoting,
                PointAverageRounding := pointAverageRounding,
                HideVoterIdentity := hideVoterIdentity,
                JoinCode := encryptedJoinCode, LeaderCode := encryptedLeaderCode,
                UpdatedDate := now, TeamID := teamID }
            else r) }
      (Except.ok (), db',
        if cacheDelFails then cache else cacheDel cache (updateGameCacheKey pokerID))

/-- DeleteGame.  Associated rows removed by the schema's cascade rules are
outside the claims under study; the statement the source issues deletes
the poker row. -/
def DeleteGame (db : DB) (cache : Cache) (cacheDelFails : Bool) (pokerID : String) :
    Except String Unit × DB × Cache :=
  let db' : DB := { db with pokerRows := db.pokerRows.filter (fun r => ¬(r.ID == pokerID)) }
  (Except.ok (), db',
    if cacheDelFails then cache else cacheDel cache (deleteGameCacheKey pokerID))

/-! ## AI point-suggestion module -/

/-- Response structure the source decodes AI output into. -/
structure PointSuggestionResponse where
  SuggestedPoint : String
  Reason : String
deriving DecidableEq

/-- strconv.Atoi: optional sign, decimal digits, error when empty,
malformed or outside the 64-bit int range. -/
def atoi (s : String) : Option Int :=
  let signDigits : Int × List Char :=
    match s.data with
    | '+' :: t => (1, t)
    | '-' :: t => (-1, t)
    | t => (1, t)
  let sign := signDigits.1
  let ds := signDigits.2
  if ds = [] then none
  else if ds.all Char.isDigit then
    let n : Nat := ds.foldl (fun a c => a * 10 + (c.toNat - 48)) 0
    let v : Int := sign * n
    if -(2 ^ 63) ≤ v ∧ v < 2 ^ 63 then some v else none
  else none

/-- First index of a character in a list, -1 when absent, as
strings.Index of a one-character pattern. -/
def indexOfChar (l : List Char) (c : Char) : Int :=
  match l.findIdx? (fun x => x == c) with
  | some i => (i : Int)
  | none => -1

/-- Last index of a character in a list, -1 when absent, as
strings.LastIndex of a one-character pattern. -/
def lastIndexOfChar (l : List Char) (c : Char) : Int :=
  match (l.enum.filter (fun p => p.2 == c)).getLast? with
  | some p => (p.1 : Int)
  | none => -1

/-- Substring by half-open index range, as the Go slice s[a:b]. -/
def substringChars (s : String) (a b : Nat) : String :=
  String.mk ((s.data.drop a).take (b - a))

/-- First maximal run of decimal digits in the content, or the empty
string: the regexp search for one-or-more digits in
findNumberInContent. -/
def firstDigitRun : List Char → Option (List Char)
  | [] => none
  | c :: rest =>
    if c.isDigit then some (c :: rest.takeWhile Char.isDigit)
    else firstDigitRun rest

/-- findNumberInContent: first digit run, empty string when none. -/
def findNumberInContent (content : String) : String :=
  match firstDigitRun content.data with
  | some ds => String.mk ds
  | none => ""

/-- Loop body of the numeric-comparison pass of findClosestPoint:
reserved tokens and non-numeric points are skipped; a point whose
distance to the target is strictly below the running minimum (initially
MaxInt32) becomes the new closest candidate. -/
def closestStep (num : Int) (acc : String × Int) (p : String) : String × Int :=
  if p = "?" ∨ p = "☕️" ∨ p = "1/2" then acc
  else
    match atoi p with
    | none => acc
    | some pNum =>
      let diff : Int := (pNum - num).natAbs
      if diff < acc.2 then (p, diff) else acc

/-- findClosestPoint.  Option.none models the Go panic raised by
indexing availablePoints at length minus one when the list is empty. -/
def findClosestPoint (point : String) (availablePoints : List String) : Option String :=
  if availablePoints.contains point then some point
  else if point = "?" ∨ point = "☕️" then
    if availablePoints.contains "?" then some "?"
    else availablePoints.getLast?
  else
    let halfMatch : Option String :=
      if point = "1/2" then
        if availablePoints.contains "1/2" then some "1/2"
        else if availablePoints.contains "1" then some "1"
        else none
      else none
    match halfMatch with
    | some p => some p
    | none =>
      match atoi point with
      | none =>
        if availablePoints.contains "?" then some "?"
        else availablePoints.getLast?
      | some num =>
        some (availablePoints.foldl (closestStep num) ("?", 2147483647)).1

/-- Substring occurrence test, as strings.Contains: the pattern occurs
as a contiguous run of the haystack (every pattern matches the empty
haystack only when itself empty). -/
def hasSubstr : List Char → List Char → Bool
  | [], pat => pat.isEmpty
  | c :: rest, pat => pat.isPrefixOf (c :: rest) || hasSubstr rest pat

/-- The literal patterns the source searches the content for, per
available point. -/
def storyPointPatterns (point : String) : List String :=
  ["点数: " ++ point,
   "suggestedPoint\":\"" ++ point,
   "建议点数: " ++ point,
   "我建议用 " ++ point,
   "推荐 " ++ point,
   "使用 " ++ point,
   "分配 " ++ point,
   point ++ " 点"]

/-- The double loop over available points and their patterns: the first
point one of whose patterns occurs in the content. -/
def findPatternPoint (content : String) : List String → Option String
  | [] => none
  | p :: rest =>
    if (storyPointPatterns p).any (fun pat => hasSubstr content.data pat.data) then some p
    else findPatternPoint content rest

/-- Leading and trailing whitespace removal, as strings.TrimSpace. -/
def trimSpace (s : String) : String :=
  String.mk (((s.data.dropWhile Char.isWhitespace).reverse.dropWhile Char.isWhitespace).reverse)

/-- Non-JSON tail of parseAIResponse: the pattern scan over the
available points, then the first-number search routed through
findClosestPoint, then the question-mark default. -/
def parseFallback (extractReason : String → String) (content : String)
    (availablePoints : List String) : Option (String × String) :=
  match findPatternPoint content availablePoints with
  | some point => some (point, extractReason content)
  | none =>
    let foundNumber := findNumberInContent content
    if foundNumber ≠ "" then
      match findClosestPoint foundNumber availablePoints with
      | some closestPoint => some (closestPoint, extractReason content)
      | none => none
    else
      some ("?", extractReason content)

/-- parseAIResponse.  The unmarshal parameter models json.Unmarshal of a
candidate JSON fragment into PointSuggestionResponse; the extractReason
parameter models the extractReason helper, which performs regexp-based
text cleanup, always terminates in the source, and whose output is used
only as the returned reason, never as the point.  Option.none models the
panic propagated from findClosestPoint. -/
def parseAIResponse (unmarshal : String → Option PointSuggestionResponse)
    (extractReason : String → String)
    (content0 : String) (availablePoints : List String) :
    Option (String × String) :=
  let content := trimSpace content0
  let jsonStart := indexOfChar content.data lbrace
  let jsonEnd := lastIndexOfChar content.data rbrace
  if jsonStart ≥ 0 ∧ jsonEnd > jsonStart then
    match unmarshal (substringChars content jsonStart.toNat (jsonEnd.toNat + 1)) with
    | some response =>
      if response.SuggestedPoint ≠ "" then
        if availablePoints.contains response.SuggestedPoint then
          some (response.SuggestedPoint, response.Reason)
        else
          match findClosestPoint response.SuggestedPoint availablePoints with
          | some closestPoint => some (closestPoint, response.Reason)
          | none => none
      else parseFallback extractReason content availablePoints
    | none => parseFallback extractReason content availablePoints
  else parseFallback extractReason content availablePoints

/-! ## General lemmas -/

/-- Membership reading of List.contains for strings. -/
lemma contains_iff_mem (l : List String) (a : String) : l.contains a = true ↔ a ∈ l := by
  simp [List.contains, List.elem_iff]

/-- Deleting a key then reading it yields nothing. -/
lemma cacheGet_cacheDel_self (c : Cache) (key : String) :
    cacheGet (cacheDel c key) key = none := by
  simp [cacheGet, cacheDel]

/-- Writing a key then reading it yields the written blob. -/
lemma cacheGet_cachePut_self (c : Cache) (key : String) (v : CacheVal) :
    cacheGet (cachePut c key v) key = some v := by
  simp [cacheGet, cachePut]

/-- Reading another key after a write is unchanged. -/
lemma cacheGet_cachePut_other (c : Cache) (key k : String) (v : CacheVal) (h : k ≠ key) :
    cacheGet (cachePut c key v) k = cacheGet c k := by
  simp [cacheGet, cachePut, h]

/-- Finding by id commutes with an id-preserving per-row rewrite applied
to the rows with that id. -/
lemma find?_map_row_update (l : List PokerRow) (pokerID : String)
    (f : PokerRow → PokerRow) (hf : ∀ r, (f r).ID = r.ID) :
    (l.map (fun r => if r.ID == pokerID then f r else r)).find? (fun r => r.ID == pokerID) =
      (l.find? (fun r => r.ID == pokerID)).map f := by
  induction l with
  | nil => simp
  | cons a l ih =>
    simp only [List.map_cons, List.find?_cons]
    by_cases h : (a.ID == pokerID) = true
    · rw [if_pos h]
      have hfa : ((f a).ID == pokerID) = true := by
        rw [hf a]; exact h
      rw [h, hfa]
      simp
    · have h' : (a.ID == pokerID) = false := by
        exact Bool.not_eq_true _ ▸ (by simpa using h)
      rw [if_neg h, h']
      simpa using ih

/-- The result component of a store rebuild is the store read itself:
the trailing cache write never alters what the caller sees. -/
lemma getFromStoreAndCache_fst (crypto : Crypto) (aesKey : String) (db : DB)
    (cache : Cache) (sf : Bool) (pokerID userID : String) :
    (getFromStoreAndCache crypto aesKey db cache sf pokerID userID).1 =
      readFromStore crypto aesKey db pokerID userID := by
  unfold getFromStoreAndCache
  cases readFromStore crypto aesKey db pokerID userID <;> rfl

/-- When the store read fails, the rebuild leaves the cache untouched. -/
lemma getFromStoreAndCache_snd_of_error (crypto : Crypto) (aesKey : String) (db : DB)
    (cache : Cache) (sf : Bool) (pokerID userID : String) (e : String)
    (h : readFromStore crypto aesKey db pokerID userID = Except.error e) :
    (getFromStoreAndCache crypto aesKey db cache sf pokerID userID).2 = cache := by
  unfold getFromStoreAndCache
  rw [h]

/-- When the store read succeeds and the cache write does not fail, the
rebuild stores the rebuilt aggregate under the game key. -/
lemma getFromStoreAndCache_snd_of_ok (crypto : Crypto) (aesKey : String) (db : DB)
    (cache : Cache) (pokerID userID : String) (b : Poker)
    (h : readFromStore crypto aesKey db pokerID userID = Except.ok b) :
    (getFromStoreAndCache crypto aesKey db cache false pokerID userID).2 =
      cachePut cache (getGameCacheKey pokerID) (CacheVal.game b) := by
  unfold getFromStoreAndCache
  rw [h]
  simp

/-- A read with no usable cache entry is exactly the store rebuild. -/
lemma GetGameByID_of_miss (crypto : Crypto) (aesKey : String) (db : DB)
    (cache : Cache) (sf : Bool) (pokerID userID : String)
    (h : cacheLookupGame cache false pokerID = none) :
    GetGameByID crypto aesKey db cache false sf pokerID userID =
      getFromStoreAndCache crypto aesKey db cache sf pokerID userID := by
  unfold GetGameByID
  rw [h]

/-- The numeric-comparison fold only ever returns the initial candidate
or an element of the folded list. -/
lemma closestFold_mem (num : Int) :
    ∀ (l : List String) (acc : String × Int) (pts : List String),
      acc.1 ∈ pts → (∀ p ∈ l, p ∈ pts) →
      (l.foldl (closestStep num) acc).1 ∈ pts := by
  intro l
  induction l with
  | nil => intro acc pts hacc _; simpa using hacc
  | cons p rest ih =>
    intro acc pts hacc hsub
    simp only [List.foldl_cons]
    apply ih
    · unfold closestStep
      split_ifs with h1
      · exact hacc
      · cases atoi p with
        | none => exact hacc
        | some pNum =>
          simp only []
          split_ifs with h2
          · exact hsub p (by simp)
          · exact hacc
    · intro q hq; exact hsub q (by simp [hq])

/-- Whenever the question-mark token is available, findClosestPoint is
total and returns an available point. -/
lemma findClosestPoint_mem (pts : List String) (hq : "?" ∈ pts) (point : String) :
    ∃ r, findClosestPoint point pts = some r ∧ r ∈ pts := by
  by_cases h1 : point ∈ pts
  · exact ⟨point, by simp [findClosestPoint, h1], h1⟩
  · by_cases h2 : point = "?" ∨ point = "☕️"
    · exact ⟨"?", by simp [findClosestPoint, h1, h2, hq], hq⟩
    · by_cases h3 : point = "1/2"
      · by_cases h4 : ("1/2" : String) ∈ pts
        · exact ⟨"1/2", by simp [findClosestPoint, h1, h2, h3, h4], h4⟩
        · by_cases h5 : ("1" : String) ∈ pts
          · exact ⟨"1", by simp [findClosestPoint, h1, h2, h3, h4, h5], h5⟩
          · have hatoi : atoi "1/2" = none := by decide
            exact ⟨"?", by simp [findClosestPoint, h1, h2, h3, h4, h5, hatoi, hq], hq⟩
      · cases hnum : atoi point with
        | none =>
          exact ⟨"?", by simp [findClosestPoint, h1, h2, h3, hnum, hq], hq⟩
        | some num =>
          refine ⟨(pts.foldl (closestStep num) ("?", 2147483647)).1,
            by simp [findClosestPoint, h1, h2, h3, hnum], ?_⟩
          exact closestFold_mem num pts ("?", 2147483647) pts hq (fun p hp => hp)

/-- The pattern scan selects a point from the scanned list. -/
lemma findPatternPoint_mem (content : String) :
    ∀ (pts : List String) (p : String), findPatternPoint content pts = some p → p ∈ pts := by
  intro pts
  induction pts with
  | nil => intro p h; simp [findPatternPoint] at h
  | cons q rest ih =>
    intro p h
    unfold findPatternPoint at h
    split_ifs at h with hq
    · cases h; simp
    · exact List.mem_cons_of_mem q (ih p h)

/-- The non-JSON tail is total and returns an available point whenever
the question-mark token is available. -/
lemma parseFallback_mem (er : String → String) (content : String)
    (pts : List String) (hq : "?" ∈ pts) :
    ∃ point reason, parseFallback er content pts = some (point, reason) ∧ point ∈ pts := by
  unfold parseFallback
  cases hp : findPatternPoint content pts with
  | some p =>
    exact ⟨p, er content, rfl, findPatternPoint_mem content pts p hp⟩
  | none =>
    by_cases hn : findNumberInContent content ≠ ""
    · obtain ⟨r, hr, hmem⟩ := findClosestPoint_mem pts hq (findNumberInContent content)
      refine ⟨r, er content, ?_, hmem⟩
      simp [hn, hr]
    · refine ⟨"?", er content, ?_, hq⟩
      simp at hn
      simp [hn]

/-- Concrete JSON body used to drive parseAIResponse into its
out-of-range branch: a braced object whose suggested point is the
question mark. -/
def c10json : String :=
  String.mk ([lbrace] ++ "\"suggestedPoint\":\"?\",\"reason\":\"R\"".data ++ [rbrace])

/-- Concrete unmarshal oracle, consistent with json.Unmarshal on the one
fragment parseAIResponse extracts from c10json. -/
def c10unmarshal (s : String) : Option PointSuggestionResponse :=
  if s = c10json then some { SuggestedPoint := "?", Reason := "R" } else none

/-- Concrete reason extractor for the C10 instance. -/
def c10extract (_ : String) : String := "R"

/-- Claim C10: for every non-empty availablePoints list containing the
question-mark token, parseAIResponse returns without panicking and its
suggested point is an element of availablePoints, for every behavior of
the json.Unmarshal and reason-extraction collaborators; but with an
empty availablePoints list and a non-numeric extracted point,
findClosestPoint indexes the list at length minus one and panics
(modelled as Option.none), reached from parseAIResponse by a concrete
request, so the suggestion path is not total over all request bodies. -/
theorem C10_parse_membership_and_empty_points_panic :
    (∀ (unmarshal : String → Option PointSuggestionResponse)
       (extractReason : String → String) (content : String) (pts : List String),
       pts ≠ [] → "?" ∈ pts →
       ∃ point reason,
         parseAIResponse unmarshal extractReason content pts = some (point, reason) ∧
         point ∈ pts) ∧
    findClosestPoint "?" [] = none ∧
    parseAIResponse c10unmarshal c10extract c10json [] = none := by
  refine ⟨?_, by decide, by decide⟩
  intro um er content pts _ hq
  unfold parseAIResponse
  by_cases hj : indexOfChar (trimSpace content).data lbrace ≥ 0 ∧
      lastIndexOfChar (trimSpace content).data rbrace > indexOfChar (trimSpace content).data lbrace
  · rw [if_pos hj]
    cases hum : um (substringChars (trimSpace content)
        (indexOfChar (trimSpace content).data lbrace).toNat
        ((lastIndexOfChar (trimSpace content).data rbrace).toNat + 1)) with
    | none => exact parseFallback_mem er (trimSpace content) pts hq
    | some response =>
      by_cases hsp : response.SuggestedPoint = ""
      · simp only [hsp, ne_eq, not_true_eq_false, if_false]
        exact parseFallback_mem er (trimSpace content) pts hq
      · by_cases hin : response.SuggestedPoint ∈ pts
        · refine ⟨response.SuggestedPoint, response.Reason, ?_, hin⟩
          simp [hsp, hin]
        · obtain ⟨r, hr, hmem⟩ := findClosestPoint_mem pts hq response.SuggestedPoint
          refine ⟨r, response.Reason, ?_, hmem⟩
          simp [hsp, hin, hr]
  · rw [if_neg hj]
    exact parseFallback_mem er (trimSpace content) pts hq

/-- Witness for C10: the membership conjunct applied at a concrete
request with a non-empty point list containing the question mark. -/
theorem C10_witness :
    ∃ point reason,
      parseAIResponse c10unmarshal c10extract "pick one" ["1", "?"] = some (point, reason) ∧
      point ∈ ["1", "?"] :=
  C10_parse_membership_and_empty_points_panic.1 c10unmarshal c10extract "pick one"
    ["1", "?"] (by decide) (by decide)

/-- Claim C7: invalidating a cache key twice leaves the cache in the
same state as invalidating it once, and the second invocation, on the
now-absent key, reports success rather than an error. -/
theorem C7_invalidate_idempotent (c : Cache) (key : String) :
    (redisDelete (redisDelete c key).2 key).2 = (redisDelete c key).2 ∧
    (redisDelete (redisDelete c key).2 key).1 = Except.ok () := by
  refine ⟨?_, rfl⟩
  funext k
  by_cases h : k = key <;> simp [redisDelete, cacheDel, h]

/-- Counterexample for C6: the read path's cache key for session id abc
is the string game:abc, not the key the claim prescribes built from the
session: prefix. -/
theorem C6_counterexample_key_uses_game_prefix :
    getGameCacheKey "abc" ≠ "session:" ++ "abc" := by decide

/-- Claim C6 as amended: every cache operation on a session aggregate
uses the key formed as the string game: (the KeyPrefixGame constant)
concatenated with the session id, and the same key is used consistently
by the creation, read, update and delete paths. -/
theorem C6_amended_game_key_consistency (id : String) :
    createGameCacheKey id = KeyPrefixGame ++ id ∧
    getGameCacheKey id = KeyPrefixGame ++ id ∧
    updateGameCacheKey id = KeyPrefixGame ++ id ∧
    deleteGameCacheKey id = KeyPrefixGame ++ id ∧
    KeyPrefixGame = "game:" :=
  ⟨rfl, rfl, rfl, rfl, rfl⟩

/-- Claim C1: a cached entry is accepted and returned (cache untouched)
exactly when both its story container and its user container are
non-empty; an incomplete entry is treated as a miss, the aggregate is
rebuilt from the durable store and, on success, re-cached before being
returned. -/
theorem C1_cached_entry_completeness_gate (crypto : Crypto) (aesKey : String)
    (db : DB) (cache : Cache) (pokerID userID : String) (g : Poker)
    (hc : cacheGet cache (getGameCacheKey pokerID) = some (CacheVal.game g)) :
    (0 < g.Stories.length ∧ 0 < g.Users.length →
      GetGameByID crypto aesKey db cache false false pokerID userID = (Except.ok g, cache)) ∧
    (¬(0 < g.Stories.length ∧ 0 < g.Users.length) →
      GetGameByID crypto aesKey db cache false false pokerID userID =
        (match readFromStore crypto aesKey db pokerID userID with
         | Except.error e => (Except.error e, cache)
         | Except.ok b => (Except.ok b, cachePut cache (getGameCacheKey pokerID) (CacheVal.game b)))) := by
  have hlook : cacheLookupGame cache false pokerID = some g := by
    simp [cacheLookupGame, hc]
  constructor
  · intro hcomplete
    unfold GetGameByID
    rw [hlook]
    exact if_pos hcomplete
  · intro hincomplete
    unfold GetGameByID
    rw [hlook]
    show (if 0 < g.Stories.length ∧ 0 < g.Users.length then (Except.ok g, cache)
      else getFromStoreAndCache crypto aesKey db cache false pokerID userID) = _
    rw [if_neg hincomplete]
    unfold getFromStoreAndCache
    cases readFromStore crypto aesKey db pokerID userID <;> simp

/-! ## Concrete instances used by witnesses and counterexamples -/

/-- Crypto instance whose calls always fail; the witness scenarios below
never reach it (their access codes are empty). -/
def crypto0 : Crypto := { encrypt := fun _ _ => none, decrypt := fun _ _ => none }

/-- Crypto instance with an invertible toy cipher, for scenarios that
store access codes. -/
def crypto1 : Crypto :=
  { encrypt := fun code key => some ("enc." ++ key ++ "." ++ code),
    decrypt := fun code key =>
      if ("enc." ++ key ++ ".").data.isPrefixOf code.data
      then some (String.mk (code.data.drop ("enc." ++ key ++ ".").length)) else none }

/-- Empty cache. -/
def cache0 : Cache := fun _ => none

/-- Empty durable store. -/
def db0 : DB :=
  { pokerRows := [], facilitatorRows := [], storyRows := [], userRows := [],
    estimationScales := [] }

/-- A sample input story. -/
def story1 : Story :=
  { ID := "", Name := "story one", StoryType := "story", ReferenceID := "", Link := "",
    Description := "", AcceptanceCriteria := "", Priority := 99, Position := 0,
    Points := "" }

/-- A second sample input story. -/
def story2 : Story :=
  { ID := "", Name := "story two", StoryType := "story", ReferenceID := "", Link := "",
    Description := "d", AcceptanceCriteria := "", Priority := 1, Position := 0,
    Points := "" }

/-- A sample participant. -/
def user1 : PokerUser := { ID := "u9", Name := "pat", Active := true, Spectator := false }

/-- A complete cached aggregate (one story, one user) for the C1
witness. -/
def c1Game : Poker :=
  { ID := "g1", Name := "n", Users := [user1],
    Stories := [{ story1 with ID := "s1" }], VotingLocked := true,
    ActiveStoryID := "", PointValuesAllowed := ["1"], AutoFinishVoting := false,
    PointAverageRounding := "ceil", HideVoterIdentity := false,
    Facilitators := ["u1"], JoinCode := "", FacilitatorCode := "",
    EstimationScaleID := "es1", EstimationScaleData := some zeroEstimationScale,
    TeamID := "", TeamName := "", CreatedDate := 5, UpdatedDate := 5 }

/-- Cache holding that aggregate under the game key. -/
def c1Cache : Cache := cachePut cache0 (getGameCacheKey "g1") (CacheVal.game c1Game)

/-- Witness for C1: with a structurally complete cached entry the read
is served from the cache and the cache is untouched. -/
theorem C1_witness :
    GetGameByID crypto0 "k" db0 c1Cache false false "g1" "u1" = (Except.ok c1Game, c1Cache) :=
  (C1_cached_entry_completeness_gate crypto0 "k" db0 c1Cache "g1" "u1" c1Game
    (by decide)).1 (by decide)

/-- Claim C3: if any durable-store write inside CreateGame fails (the
session-row insert, the facilitator insert, any initial story insert the
loop reaches, or the commit), CreateGame returns an error, the durable
store is unchanged (no partial session is persisted) and the cache is
unchanged (no entry is written for the session id). -/
theorem C3_create_rolls_back_on_write_failure (crypto : Crypto) (aesKey : String)
    (db : DB) (cache : Cache) (f : CreateFail)
    (ig is os : Bool) (newID : String) (now : Nat)
    (facilitatorID name estimationScaleID : String) (pva : List String)
    (stories : List Story) (afv : Bool) (par joinCode facilitatorCode : String)
    (hvi : Bool)
    (hreach : ∀ i, f = CreateFail.insertStory i → i < stories.length) :
    ((CreateGame crypto aesKey db cache (some f) ig is os newID now facilitatorID name
        estimationScaleID pva stories afv par joinCode facilitatorCode hvi).1.isOk = false) ∧
    (CreateGame crypto aesKey db cache (some f) ig is os newID now facilitatorID name
        estimationScaleID pva stories afv par joinCode facilitatorCode hvi).2.1 = db ∧
    (CreateGame crypto aesKey db cache (some f) ig is os newID now facilitatorID name
        estimationScaleID pva stories afv par joinCode facilitatorCode hvi).2.2 = cache := by
  cases hj : encCode crypto aesKey joinCode with
  | none => simp [CreateGame, hj, Except.isOk, Except.toBool]
  | some ej =>
    cases hfc : encCode crypto aesKey facilitatorCode with
    | none => simp [CreateGame, hj, hfc, Except.isOk, Except.toBool]
    | some el =>
      cases f with
      | insertPoker => simp [CreateGame, createTxError, hj, hfc, Except.isOk, Except.toBool]
      | insertFacilitator => simp [CreateGame, createTxError, hj, hfc, Except.isOk, Except.toBool]
      | insertStory i =>
        have hi : i < stories.length := hreach i rfl
        simp [CreateGame, createTxError, hj, hfc, hi, Except.isOk, Except.toBool]
      | commit => simp [CreateGame, createTxError, hj, hfc, Except.isOk, Except.toBool]

/-- Witness for C3: a failing facilitator insert in a concrete creation
leaves the store and cache untouched and surfaces an error. -/
theorem C3_witness :
    ((CreateGame crypto0 "k" db0 cache0 (some CreateFail.insertFacilitator) false false
        false "g1" 5 "u1" "n" "es1" ["1"] [story1] false "ceil" "" "" false).1.isOk = false) ∧
    (CreateGame crypto0 "k" db0 cache0 (some CreateFail.insertFacilitator) false false
        false "g1" 5 "u1" "n" "es1" ["1"] [story1] false "ceil" "" "" false).2.1 = db0 ∧
    (CreateGame crypto0 "k" db0 cache0 (some CreateFail.insertFacilitator) false false
        false "g1" 5 "u1" "n" "es1" ["1"] [story1] false "ceil" "" "" false).2.2 = cache0 :=
  C3_create_rolls_back_on_write_failure crypto0 "k" db0 cache0 CreateFail.insertFacilitator
    false false false "g1" 5 "u1" "n" "es1" ["1"] [story1] false "ceil" "" "" false
    (fun i h => absurd h (by simp))

/-- Claim C4: a successful UpdateGame persists the changed fields to the
durable store and removes the session's cache entry; it writes no fresh
cache entry, and touches no other cache key. -/
theorem C4_update_persists_and_invalidates (crypto : Crypto) (aesKey : String)
    (db : DB) (cache : Cache) (pokerID name : String) (pva : List String)
    (afv : Bool) (par : String) (hvi : Bool) (joinCode facilitatorCode teamID : String)
    (now : Nat) (ej el : String)
    (hje : encCode crypto aesKey joinCode = some ej)
    (hle : encCode crypto aesKey facilitatorCode = some el) :
    ((UpdateGame crypto aesKey db cache false pokerID name pva afv par hvi joinCode
        facilitatorCode teamID now).1 = Except.ok ()) ∧
    (∀ row, db.pokerRows.find? (fun r => r.ID == pokerID) = some row →
      (UpdateGame crypto aesKey db cache false pokerID name pva afv par hvi joinCode
          facilitatorCode teamID now).2.1.pokerRows.find? (fun r => r.ID == pokerID) =
        some { row with
               Name := name, PointValuesAllowed := pva, AutoFinishVoting := afv,
               PointAverageRounding := par, HideVoterIdentity := hvi,
               JoinCode := ej, LeaderCode := el, UpdatedDate := now, TeamID := teamID }) ∧
    (cacheGet (UpdateGame crypto aesKey db cache false pokerID name pva afv par hvi
        joinCode facilitatorCode teamID now).2.2 (updateGameCacheKey pokerID) = none) ∧
    (∀ k, k ≠ updateGameCacheKey pokerID →
      cacheGet (UpdateGame crypto aesKey db cache false pokerID name pva afv par hvi
          joinCode facilitatorCode teamID now).2.2 k = cacheGet cache k) := by
  refine ⟨?_, ?_, ?_, ?_⟩
  · simp [UpdateGame, hje, hle]
  · intro row hrow
    simp only [UpdateGame, hje, hle]
    rw [find?_map_row_update db.pokerRows pokerID
      (fun r => { r with
                  Name := name, PointValuesAllowed := pva, AutoFinishVoting := afv,
                  PointAverageRounding := par, HideVoterIdentity := hvi,
                  JoinCode := ej, LeaderCode := el, UpdatedDate := now, TeamID := teamID })
      (fun r => rfl), hrow]
    rfl
  · simp [UpdateGame, hje, hle, cacheGet, cacheDel]
  · intro k hk
    simp [UpdateGame, hje, hle, cacheGet, cacheDel, hk]

/-- Durable store with one session row, used by update and read
witnesses. -/
def row1 : PokerRow :=
  { ID := "g1", Name := "n", VotingLocked := true, ActiveStoryID := "",
    AutoFinishVoting := false, PointAverageRounding := "ceil",
    HideVoterIdentity := false, JoinCode := "", LeaderCode := "",
    EstimationScaleID := "es1", PointValuesAllowed := ["1"], TeamID := "",
    CreatedDate := 5, UpdatedDate := 5 }

/-- Store holding row1 with its facilitator. -/
def db1 : DB :=
  { pokerRows := [row1], facilitatorRows := [("g1", "u1")], storyRows := [],
    userRows := [], estimationScales := [] }

/-- Witness for C4: a concrete successful update reports success, stores
the new name, and leaves no cache entry under the session key. -/
theorem C4_witness :
    ((UpdateGame crypto0 "k" db1 c1Cache false "g1" "renamed" ["1", "2"] true "floor"
        false "" "" "" 9).1 = Except.ok ()) ∧
    (cacheGet (UpdateGame crypto0 "k" db1 c1Cache false "g1" "renamed" ["1", "2"] true
        "floor" false "" "" "" 9).2.2 (updateGameCacheKey "g1") = none) := by
  have h := C4_update_persists_and_invalidates crypto0 "k" db1 c1Cache "g1" "renamed"
    ["1", "2"] true "floor" false "" "" "" 9 "" "" (by decide) (by decide)
  exact ⟨h.1, h.2.2.1⟩

/-- A failed cache GET yields no cached aggregate. -/
lemma cacheLookupGame_of_getFails (cache : Cache) (pokerID : String) :
    cacheLookupGame cache true pokerID = none := rfl

/-- An absent key yields no cached aggregate. -/
lemma cacheLookupGame_of_deleted (cache : Cache) (pokerID : String) :
    cacheLookupGame (cacheDel cache (getGameCacheKey pokerID)) false pokerID = none := by
  simp [cacheLookupGame, cacheGet, cacheDel]

/-- Claim C5: no cache failure is ever surfaced to the requester.  A
failed cache read in GetGameByID behaves exactly as a miss on that key;
a failed cache write-back changes nothing the caller sees; the result
and durable-store effect of CreateGame are independent of the cache
state and of every cache-failure flag; the same holds for UpdateGame;
and DeleteGame reports success whether or not its cache delete fails. -/
theorem C5_cache_failure_never_fails_request (crypto : Crypto) (aesKey : String)
    (db : DB) (pokerID userID : String) :
    (∀ (cache : Cache) (sf : Bool),
      (GetGameByID crypto aesKey db cache true sf pokerID userID).1 =
      (GetGameByID crypto aesKey db (cacheDel cache (getGameCacheKey pokerID)) false sf
        pokerID userID).1) ∧
    (∀ (cache : Cache) (gf : Bool),
      (GetGameByID crypto aesKey db cache gf true pokerID userID).1 =
      (GetGameByID crypto aesKey db cache gf false pokerID userID).1) ∧
    (∀ (cache₁ cache₂ : Cache) (fail : Option CreateFail) (g₁ s₁ o₁ g₂ s₂ o₂ : Bool)
       (newID : String) (now : Nat) (name esid : String) (pva : List String)
       (stories : List Story) (afv : Bool) (par jc fc : String) (hvi : Bool),
      ((CreateGame crypto aesKey db cache₁ fail g₁ s₁ o₁ newID now userID name esid pva
          stories afv par jc fc hvi).1 =
       (CreateGame crypto aesKey db cache₂ fail g₂ s₂ o₂ newID now userID name esid pva
          stories afv par jc fc hvi).1) ∧
      ((CreateGame crypto aesKey db cache₁ fail g₁ s₁ o₁ newID now userID name esid pva
          stories afv par jc fc hvi).2.1 =
       (CreateGame crypto aesKey db cache₂ fail g₂ s₂ o₂ newID now userID name esid pva
          stories afv par jc fc hvi).2.1)) ∧
    (∀ (cache₁ cache₂ : Cache) (d₁ d₂ : Bool) (name : String) (pva : List String)
       (afv : Bool) (par : String) (hvi : Bool) (jc fc tid : String) (now : Nat),
      ((UpdateGame crypto aesKey db cache₁ d₁ pokerID name pva afv par hvi jc fc tid now).1 =
       (UpdateGame crypto aesKey db cache₂ d₂ pokerID name pva afv par hvi jc fc tid now).1) ∧
      ((UpdateGame crypto aesKey db cache₁ d₁ pokerID name pva afv par hvi jc fc tid now).2.1 =
       (UpdateGame crypto aesKey db cache₂ d₂ pokerID name pva afv par hvi jc fc tid now).2.1)) ∧
    (∀ (cache : Cache) (d : Bool),
      (DeleteGame db cache d pokerID).1 = Except.ok ()) := by
  refine ⟨?_, ?_, ?_, ?_, ?_⟩
  · intro cache sf
    simp only [GetGameByID, cacheLookupGame_of_getFails, cacheLookupGame_of_deleted]
    rw [getFromStoreAndCache_fst, getFromStoreAndCache_fst]
  · intro cache gf
    cases hcg : cacheLookupGame cache gf pokerID with
    | none =>
      simp only [GetGameByID, hcg]
      rw [getFromStoreAndCache_fst, getFromStoreAndCache_fst]
    | some g =>
      by_cases hcomp : 0 < g.Stories.length ∧ 0 < g.Users.length
      · simp only [GetGameByID, hcg]
        rw [if_pos hcomp, if_pos hcomp]
      · simp only [GetGameByID, hcg]
        rw [if_neg hcomp, if_neg hcomp, getFromStoreAndCache_fst, getFromStoreAndCache_fst]
  · intro cache₁ cache₂ fail g₁ s₁ o₁ g₂ s₂ o₂ newID now name esid pva stories afv par jc fc hvi
    cases hj : encCode crypto aesKey jc with
    | none => simp [CreateGame, hj]
    | some ej =>
      cases hf : encCode crypto aesKey fc with
      | none => simp [CreateGame, hj, hf]
      | some el =>
        cases hT : createTxError fail stories with
        | some e => simp [CreateGame, hj, hf, hT]
        | none => simp [CreateGame, hj, hf, hT]
  · intro cache₁ cache₂ d₁ d₂ name pva afv par hvi jc fc tid now
    cases hj : encCode crypto aesKey jc with
    | none => simp [UpdateGame, hj]
    | some ej =>
      cases hf : encCode crypto aesKey fc with
      | none => simp [UpdateGame, hj, hf]
      | some el => simp [UpdateGame, hj, hf]
  · intro cache d
    rfl

/-- Replace the stored (encrypted) facilitator code of one session row,
leaving every other column and table untouched. -/
def setLeaderCode (db : DB) (pokerID lc : String) : DB :=
  { db with pokerRows := db.pokerRows.map (fun r =>
      if r.ID == pokerID then { r with LeaderCode := lc } else r) }

/-- A user who is not in the session's facilitator rows is not contained
in the facilitator list the read builds. -/
lemma facilitators_contains_false (db : DB) (pokerID userID : String)
    (hnf : ∀ p ∈ db.facilitatorRows, p.1 = pokerID → p.2 ≠ userID) :
    ((db.facilitatorRows.filter (fun p => p.1 == pokerID)).map (fun p => p.2)).contains userID
      = false := by
  rw [← Bool.not_eq_true]
  intro hc
  have hmem := (contains_iff_mem _ _).mp hc
  simp only [List.mem_map, List.mem_filter] at hmem
  obtain ⟨p, ⟨hp, hpid⟩, hpu⟩ := hmem
  exact hnf p hp (by simpa using hpid) hpu

/-- For a caller outside the facilitator set, the aggregate the store
read builds is independent of the stored facilitator code. -/
lemma readFromStore_leaderCode_indep (crypto : Crypto) (aesKey : String) (db : DB)
    (pokerID userID lc2 : String)
    (hnf : ∀ p ∈ db.facilitatorRows, p.1 = pokerID → p.2 ≠ userID) :
    readFromStore crypto aesKey (setLeaderCode db pokerID lc2) pokerID userID =
      readFromStore crypto aesKey db pokerID userID := by
  have hcont := facilitators_contains_false db pokerID userID hnf
  have hfind : (setLeaderCode db pokerID lc2).pokerRows.find? (fun r => r.ID == pokerID) =
      (db.pokerRows.find? (fun r => r.ID == pokerID)).map
        (fun r => { r with LeaderCode := lc2 }) := by
    simpa [setLeaderCode] using
      find?_map_row_update db.pokerRows pokerID (fun r => { r with LeaderCode := lc2 })
        (fun r => rfl)
  unfold readFromStore
  rw [hfind]
  cases hrow : db.pokerRows.find? (fun r => r.ID == pokerID) with
  | none => rfl
  | some row =>
    simp only [Option.map_some', setLeaderCode]
    simp only [hcont, Bool.false_eq_true, and_false, if_false, ne_eq]
    rfl

/-- A miss on the game key yields no cached aggregate. -/
lemma cacheLookupGame_of_none (cache : Cache) (pokerID : String)
    (h : cacheGet cache (getGameCacheKey pokerID) = none) :
    cacheLookupGame cache false pokerID = none := by
  simp [cacheLookupGame, h]

/-- For a caller outside the facilitator set, the store read never
populates the facilitator code. -/
lemma readFromStore_nonfacilitator_code_empty (crypto : Crypto) (aesKey : String)
    (db : DB) (pokerID userID : String) (b : Poker)
    (hnf : ∀ p ∈ db.facilitatorRows, p.1 = pokerID → p.2 ≠ userID)
    (h : readFromStore crypto aesKey db pokerID userID = Except.ok b) :
    b.FacilitatorCode = "" := by
  have hcont := facilitators_contains_false db pokerID userID hnf
  unfold readFromStore at h
  cases hrow : db.pokerRows.find? (fun r => r.ID == pokerID) with
  | none => rw [hrow] at h; cases h
  | some row =>
    rw [hrow] at h
    simp only [hcont, Bool.false_eq_true, and_false, if_false, ne_eq] at h
    split at h
    · cases h
    · cases h
      rfl

/-- The store read decrypts a stored join code for every caller and
returns the plaintext in the aggregate. -/
lemma readFromStore_joinCode_decrypted (crypto : Crypto) (aesKey : String)
    (db : DB) (pokerID userID : String) (b : Poker) (row : PokerRow)
    (hrow : db.pokerRows.find? (fun r => r.ID == pokerID) = some row)
    (hjc : row.JoinCode ≠ "")
    (h : readFromStore crypto aesKey db pokerID userID = Except.ok b) :
    crypto.decrypt row.JoinCode aesKey = some b.JoinCode := by
  unfold readFromStore at h
  rw [hrow] at h
  simp only [ne_eq, hjc, not_false_eq_true, if_true] at h
  cases hdec : crypto.decrypt row.JoinCode aesKey with
  | none => simp only [hdec] at h; cases h
  | some c =>
    simp only [hdec] at h
    split at h
    · cases h
    · cases h
      rfl

/-- Claim C8 as amended: on a read served from the durable store (no
usable cached entry under the session's key), a read by a user outside
the facilitator set is unchanged when the stored facilitator code is
replaced (two runs differing only in that stored code agree), such a
reader receives an empty FacilitatorCode field, and a stored join code
is decrypted and returned to every caller.  The restriction to
store-served reads is forced: a cached aggregate is returned verbatim,
so a facilitator code decrypted by an earlier facilitator read can be
served from the cache to a non-facilitator (see the counterexample
below). -/
theorem C8_facilitator_code_gating (crypto : Crypto) (aesKey : String) (db : DB)
    (cache : Cache) (sf : Bool) (pokerID userID lc2 : String)
    (h0 : cacheGet cache (getGameCacheKey pokerID) = none)
    (hnf : ∀ p ∈ db.facilitatorRows, p.1 = pokerID → p.2 ≠ userID) :
    ((GetGameByID crypto aesKey db cache false sf pokerID userID).1 =
     (GetGameByID crypto aesKey (setLeaderCode db pokerID lc2) cache false sf
        pokerID userID).1) ∧
    (∀ b, (GetGameByID crypto aesKey db cache false sf pokerID userID).1 = Except.ok b →
       b.FacilitatorCode = "") ∧
    (∀ b row, db.pokerRows.find? (fun r => r.ID == pokerID) = some row →
       row.JoinCode ≠ "" →
       (GetGameByID crypto aesKey db cache false sf pokerID userID).1 = Except.ok b →
       crypto.decrypt row.JoinCode aesKey = some b.JoinCode) := by
  have hmiss := cacheLookupGame_of_none cache pokerID h0
  have hget : ∀ (d : DB), (GetGameByID crypto aesKey d cache false sf pokerID userID).1 =
      readFromStore crypto aesKey d pokerID userID := by
    intro d
    rw [GetGameByID_of_miss crypto aesKey d cache sf pokerID userID hmiss]
    exact getFromStoreAndCache_fst crypto aesKey d cache sf pokerID userID
  refine ⟨?_, ?_, ?_⟩
  · rw [hget db, hget (setLeaderCode db pokerID lc2),
      readFromStore_leaderCode_indep crypto aesKey db pokerID userID lc2 hnf]
  · intro b hb
    rw [hget db] at hb
    exact readFromStore_nonfacilitator_code_empty crypto aesKey db pokerID userID b hnf hb
  · intro b row hrow hjc hb
    rw [hget db] at hb
    exact readFromStore_joinCode_decrypted crypto aesKey db pokerID userID b row hrow hjc hb

/-- Session row with encrypted join and facilitator codes under the toy
cipher of crypto1. -/
def row2 : PokerRow :=
  { row1 with ID := "g2", JoinCode := "enc.k.J", LeaderCode := "enc.k.L" }

/-- Store holding row2 with facilitator u1 only. -/
def db2 : DB :=
  { db0 with pokerRows := [row2], facilitatorRows := [("g2", "u1")] }

/-- Witness for C8: for the non-facilitator u2, the two runs that differ
only in the stored facilitator code agree. -/
theorem C8_witness :
    (GetGameByID crypto1 "k" db2 cache0 false false "g2" "u2").1 =
    (GetGameByID crypto1 "k" (setLeaderCode db2 "g2" "enc.k.X") cache0 false false
      "g2" "u2").1 :=
  (C8_facilitator_code_gating crypto1 "k" db2 cache0 false "g2" "u2" "enc.k.X"
    (by decide) (by decide)).1

/-- Populated store for the C8 counterexample: one session with an
encrypted facilitator code, facilitator u1 only, and one story and one
participant, so the aggregate a read caches is structurally complete. -/
def db3 : DB :=
  { pokerRows := [{ row1 with ID := "g3", LeaderCode := "enc.k.L" }],
    facilitatorRows := [("g3", "u1")],
    storyRows := [{ PokerID := "g3", S := { story1 with ID := "s1" } }],
    userRows := [{ PokerID := "g3", U := user1 }],
    estimationScales := [] }

/-- Counterexample for C8 as originally stated: u2 is not a facilitator
of session g3, and a read by u2 straight from the durable store does
return an empty FacilitatorCode; but after facilitator u1 reads the
session - which caches the full aggregate including the decrypted
facilitator code - the subsequent read by the non-facilitator u2 is
served from the cache and returns the decrypted facilitator code L, so
a non-facilitator caller's FacilitatorCode field is not always empty. -/
theorem C8_counterexample_cached_code_leaks_to_nonfacilitator :
    ((db3.facilitatorRows.filter (fun p => p.1 == "g3")).map (fun p => p.2)).contains "u2"
      = false ∧
    (GetGameByID crypto1 "k" db3 cache0 false false "g3" "u2").1.toOption.map
      (fun b => b.FacilitatorCode) = some "" ∧
    (GetGameByID crypto1 "k" db3
        (GetGameByID crypto1 "k" db3 cache0 false false "g3" "u1").2
        false false "g3" "u2").1.toOption.map
      (fun b => b.FacilitatorCode) = some "L" := by decide

/-- Durable state produced by a committed CreateGame transaction: the
session row, its facilitator row and one story row per supplied story
are appended. -/
lemma CreateGame_success_db (crypto : Crypto) (aesKey : String) (db : DB)
    (cache : Cache) (ig is os : Bool) (newID : String) (now : Nat)
    (facilitatorID name esid : String) (pva : List String) (stories : List Story)
    (afv : Bool) (par jc fc : String) (hvi : Bool) (ej el : String)
    (hje : encCode crypto aesKey jc = some ej)
    (hle : encCode crypto aesKey fc = some el) :
    (CreateGame crypto aesKey db cache none ig is os newID now facilitatorID name esid
      pva stories afv par jc fc hvi).2.1 =
    { db with
      pokerRows := db.pokerRows ++
        [{ ID := newID, Name := name, VotingLocked := true, ActiveStoryID := "",
           AutoFinishVoting := afv, PointAverageRounding := par,
           HideVoterIdentity := hvi, JoinCode := ej, LeaderCode := el,
           EstimationScaleID := esid, PointValuesAllowed := pva, TeamID := "",
           CreatedDate := now, UpdatedDate := now }],
      facilitatorRows := db.facilitatorRows ++ [(newID, facilitatorID)],
      storyRows := db.storyRows ++
        (stories.enum.map (fun p => mkStoryRow newID p.2 p.1)) } := by
  simp [CreateGame, hje, hle, createTxError]

/-- Claim C9: each initial story of a committed creation is persisted
with queue position equal to its index in the supplied list, so the new
session's story positions are exactly 0..n-1 (pairwise distinct and
contiguous) and follow the supplied order. -/
theorem C9_create_story_positions (crypto : Crypto) (aesKey : String) (db : DB)
    (cache : Cache) (ig is os : Bool) (newID : String) (now : Nat)
    (facilitatorID name esid : String) (pva : List String) (stories : List Story)
    (afv : Bool) (par jc fc : String) (hvi : Bool) (ej el : String)
    (hje : encCode crypto aesKey jc = some ej)
    (hle : encCode crypto aesKey fc = some el)
    (hfresh : ∀ r ∈ db.storyRows, r.PokerID ≠ newID) :
    (((CreateGame crypto aesKey db cache none ig is os newID now facilitatorID name esid
        pva stories afv par jc fc hvi).2.1.storyRows.filter
          (fun r => r.PokerID == newID)).map (fun r => r.S.Position) =
      List.range stories.length) ∧
    (((CreateGame crypto aesKey db cache none ig is os newID now facilitatorID name esid
        pva stories afv par jc fc hvi).2.1.storyRows.filter
          (fun r => r.PokerID == newID)).map (fun r => r.S.Position)).Nodup ∧
    (((CreateGame crypto aesKey db cache none ig is os newID now facilitatorID name esid
        pva stories afv par jc fc hvi).2.1.storyRows.filter
          (fun r => r.PokerID == newID)).map (fun r => r.S.Name) =
      stories.map (fun s => s.Name)) := by
  rw [CreateGame_success_db crypto aesKey db cache ig is os newID now facilitatorID name
    esid pva stories afv par jc fc hvi ej el hje hle]
  have hold : db.storyRows.filter (fun r => r.PokerID == newID) = [] := by
    rw [List.filter_eq_nil_iff]
    intro r hr
    simp [hfresh r hr]
  have hnew : (stories.enum.map (fun p => mkStoryRow newID p.2 p.1)).filter
      (fun r => r.PokerID == newID) =
      stories.enum.map (fun p => mkStoryRow newID p.2 p.1) := by
    rw [List.filter_eq_self]
    intro r hr
    simp only [List.mem_map] at hr
    obtain ⟨p, _, rfl⟩ := hr
    simp [mkStoryRow]
  have hpos : ((db.storyRows ++ stories.enum.map (fun p => mkStoryRow newID p.2 p.1)).filter
      (fun r => r.PokerID == newID)).map (fun r => r.S.Position) =
      List.range stories.length := by
    rw [List.filter_append, hold, hnew, List.nil_append, List.map_map]
    have hcomp : ((fun r : StoryRow => r.S.Position) ∘
        (fun p : Nat × Story => mkStoryRow newID p.2 p.1)) = Prod.fst :=
      funext (fun p => rfl)
    rw [hcomp, List.enum_map_fst]
  refine ⟨hpos, ?_, ?_⟩
  · rw [hpos]
    exact List.nodup_range stories.length
  · rw [List.filter_append, hold, hnew, List.nil_append, List.map_map]
    have hcomp : ((fun r : StoryRow => r.S.Name) ∘
        (fun p : Nat × Story => mkStoryRow newID p.2 p.1)) =
        ((fun s : Story => s.Name) ∘ Prod.snd) :=
      funext (fun p => rfl)
    rw [hcomp, ← List.map_map, List.enum_map_snd]

/-- Witness for C9: a concrete two-story creation persists positions
0 and 1 in the supplied order. -/
theorem C9_witness :
    (((CreateGame crypto0 "k" db0 cache0 none false false false "g1" 5 "u1" "n" "es1"
        ["1"] [story1, story2] false "ceil" "" "" false).2.1.storyRows.filter
          (fun r => r.PokerID == "g1")).map (fun r => r.S.Position) =
      List.range 2) ∧
    (((CreateGame crypto0 "k" db0 cache0 none false false false "g1" 5 "u1" "n" "es1"
        ["1"] [story1, story2] false "ceil" "" "" false).2.1.storyRows.filter
          (fun r => r.PokerID == "g1")).map (fun r => r.S.Name) =
      ["story one", "story two"]) := by
  have h := C9_create_story_positions crypto0 "k" db0 cache0 false false false "g1" 5
    "u1" "n" "es1" ["1"] [story1, story2] false "ceil" "" "" false "" ""
    (by decide) (by decide) (by intro r hr; cases hr)
  exact ⟨h.1, h.2.2⟩

/-- Concrete creation call for C2: one initial story, no access codes. -/
def c2CreateRes : Except String Poker × DB × Cache :=
  CreateGame crypto0 "k" db0 cache0 none false false false "g1" 5 "u1" "n" "es1"
    ["1"] [story1] false "ceil" "" "" false

/-- Immediate read of the created session by its creator. -/
def c2ReadRes : Except String Poker × Cache :=
  GetGameByID crypto0 "k" c2CreateRes.2.1 c2CreateRes.2.2 false false "g1" "u1"

/-- Counterexample for C2: both the creation call and the immediate read
succeed, yet the aggregates differ: the creation call returns an
aggregate with an empty story container while the read returns the one
persisted story, so the round trip is not deep-equal to the creation
call's return value. -/
theorem C2_counterexample_create_read_not_deep_equal :
    c2CreateRes.1.toOption.isSome = true ∧
    c2ReadRes.1.toOption.isSome = true ∧
    c2CreateRes.1.toOption.map (fun b => b.Stories.length) = some 0 ∧
    c2ReadRes.1.toOption.map (fun b => b.Stories.length) = some 1 ∧
    c2CreateRes.1.toOption ≠ c2ReadRes.1.toOption := by decide

/-- Cache state after a committed CreateGame whose flags all succeed,
starting from a cache with no entry under the new session id: if the
post-commit aggregate fetch failed the cache still has no entry;
otherwise the fetched complete aggregate is stored under the game key
(written once by the inner read and once by CreateGame itself). -/
lemma CreateGame_success_cache (crypto : Crypto) (aesKey : String) (db : DB)
    (cache : Cache) (newID : String) (now : Nat)
    (facilitatorID name esid : String) (pva : List String) (stories : List Story)
    (afv : Bool) (par jc fc : String) (hvi : Bool) (ej el : String)
    (hje : encCode crypto aesKey jc = some ej)
    (hle : encCode crypto aesKey fc = some el)
    (h0 : cacheGet cache (getGameCacheKey newID) = none) :
    (CreateGame crypto aesKey db cache none false false false newID now facilitatorID
      name esid pva stories afv par jc fc hvi).2.2 =
    (match readFromStore crypto aesKey
        (CreateGame crypto aesKey db cache none false false false newID now facilitatorID
          name esid pva stories afv par jc fc hvi).2.1 newID facilitatorID with
     | Except.error _ => cache
     | Except.ok cg =>
       cachePut (cachePut cache (getGameCacheKey newID) (CacheVal.game cg))
         (createGameCacheKey newID) (CacheVal.game cg)) := by
  have hmiss := cacheLookupGame_of_none cache newID h0
  rw [CreateGame_success_db crypto aesKey db cache false false false newID now
    facilitatorID name esid pva stories afv par jc fc hvi ej el hje hle]
  simp only [CreateGame, hje, hle, createTxError]
  rw [GetGameByID_of_miss crypto aesKey _ cache false newID facilitatorID hmiss]
  cases hread : readFromStore crypto aesKey
      { db with
        pokerRows := db.pokerRows ++
          [{ ID := newID, Name := name, VotingLocked := true, ActiveStoryID := "",
             AutoFinishVoting := afv, PointAverageRounding := par,
             HideVoterIdentity := hvi, JoinCode := ej, LeaderCode := el,
             EstimationScaleID := esid, PointValuesAllowed := pva, TeamID := "",
             CreatedDate := now, UpdatedDate := now }],
        facilitatorRows := db.facilitatorRows ++ [(newID, facilitatorID)],
        storyRows := db.storyRows ++
          (stories.enum.map (fun p => mkStoryRow newID p.2 p.1)) } newID facilitatorID with
  | error e => simp [getFromStoreAndCache, hread]
  | ok cg => simp [getFromStoreAndCache, hread]

/-- Result of a read that finds a cached aggregate under the game key:
the cached value if it is structurally complete, otherwise the store
rebuild. -/
lemma GetGameByID_of_hit (crypto : Crypto) (aesKey : String) (db : DB) (cache : Cache)
    (sf : Bool) (pokerID userID : String) (g : Poker)
    (h : cacheGet cache (getGameCacheKey pokerID) = some (CacheVal.game g)) :
    (GetGameByID crypto aesKey db cache false sf pokerID userID).1 =
      (if 0 < g.Stories.length ∧ 0 < g.Users.length then Except.ok g
       else readFromStore crypto aesKey db pokerID userID) := by
  have hl : cacheLookupGame cache false pokerID = some g := by
    simp [cacheLookupGame, h]
  unfold GetGameByID
  rw [hl]
  show ((if 0 < g.Stories.length ∧ 0 < g.Users.length then (Except.ok g, cache)
    else getFromStoreAndCache crypto aesKey db cache sf pokerID userID)).1 = _
  by_cases hcomp : 0 < g.Stories.length ∧ 0 < g.Users.length
  · rw [if_pos hcomp, if_pos hcomp]
  · rw [if_neg hcomp, if_neg hcomp, getFromStoreAndCache_fst]

/-- Claim C2 as amended: starting from a cache with no entry under the
new session id, whenever a committed CreateGame leaves a cached
aggregate under the session's game key (that is, its post-commit
aggregate fetch succeeded), an immediate GetGameByID by the creating
facilitator returns exactly that cached complete aggregate - not the
value CreateGame itself returned, whose story and user containers are
empty. -/
theorem C2_amended_read_returns_cached_aggregate (crypto : Crypto) (aesKey : String)
    (db : DB) (cache : Cache) (newID : String) (now : Nat)
    (facilitatorID name esid : String) (pva : List String) (stories : List Story)
    (afv : Bool) (par jc fc : String) (hvi : Bool) (g : Poker)
    (h0 : cacheGet cache (getGameCacheKey newID) = none)
    (h2 : cacheGet (CreateGame crypto aesKey db cache none false false false newID now
        facilitatorID name esid pva stories afv par jc fc hvi).2.2
      (getGameCacheKey newID) = some (CacheVal.game g)) :
    (GetGameByID crypto aesKey
      (CreateGame crypto aesKey db cache none false false false newID now facilitatorID
        name esid pva stories afv par jc fc hvi).2.1
      (CreateGame crypto aesKey db cache none false false false newID now facilitatorID
        name esid pva stories afv par jc fc hvi).2.2
      false false newID facilitatorID).1 = Except.ok g := by
  cases hje : encCode crypto aesKey jc with
  | none =>
    exfalso
    have hcc : (CreateGame crypto aesKey db cache none false false false newID now
        facilitatorID name esid pva stories afv par jc fc hvi).2.2 = cache := by
      simp [CreateGame, hje]
    rw [hcc, h0] at h2
    cases h2
  | some ej =>
    cases hle : encCode crypto aesKey fc with
    | none =>
      exfalso
      have hcc : (CreateGame crypto aesKey db cache none false false false newID now
          facilitatorID name esid pva stories afv par jc fc hvi).2.2 = cache := by
        simp [CreateGame, hje, hle]
      rw [hcc, h0] at h2
      cases h2
    | some el =>
      have hcache := CreateGame_success_cache crypto aesKey db cache newID now
        facilitatorID name esid pva stories afv par jc fc hvi ej el hje hle h0
      cases hread : readFromStore crypto aesKey
          (CreateGame crypto aesKey db cache none false false false newID now
            facilitatorID name esid pva stories afv par jc fc hvi).2.1
          newID facilitatorID with
      | error e =>
        exfalso
        rw [hread] at hcache
        rw [hcache, h0] at h2
        cases h2
      | ok cg =>
        rw [hread] at hcache
        have hkey : createGameCacheKey newID = getGameCacheKey newID := rfl
        rw [hkey] at hcache
        have hg : g = cg := by
          rw [hcache, cacheGet_cachePut_self] at h2
          cases h2
          rfl
        subst hg
        have hhit : cacheGet (CreateGame crypto aesKey db cache none false false false
            newID now facilitatorID name esid pva stories afv par jc fc hvi).2.2
            (getGameCacheKey newID) = some (CacheVal.game g) := by
          rw [hcache]
          exact cacheGet_cachePut_self _ _ _
        rw [GetGameByID_of_hit crypto aesKey _ _ false newID facilitatorID g hhit]
        by_cases hcomp : 0 < g.Stories.length ∧ 0 < g.Users.length
        · rw [if_pos hcomp]
        · rw [if_neg hcomp, hread]

/-- The complete aggregate the concrete C2 creation left in the cache. -/
def c2g : Poker :=
  match cacheGet c2CreateRes.2.2 (getGameCacheKey "g1") with
  | some (CacheVal.game g) => g
  | _ => c1Game

/-- Witness for the amended C2: the concrete creation caches a complete
aggregate and the immediate read by the creator returns exactly it. -/
theorem C2_amended_witness :
    (GetGameByID crypto0 "k" c2CreateRes.2.1 c2CreateRes.2.2 false false "g1" "u1").1 =
      Except.ok c2g :=
  C2_amended_read_returns_cached_aggregate crypto0 "k" db0 cache0 "g1" 5 "u1" "n" "es1"
    ["1"] [story1] false "ceil" "" "" false c2g (by decide) (by decide)
